/-
Verification of the nearest-match time-series reconciliation engine of the
airqdata repository.

The development embeds, over lists of rational and real values, the
measurement cleaner (`Sensor.clean_data` in resources/luftdaten.py), the
hourly aggregator (`Sensor.calculate_hourly_coverage` and
`Sensor.calculate_hourly_means`), the multi-day retrieval pipeline
(`Sensor.get_data`), the great-circle distance function (`haversine` in
resources/utils.py and resources/helpers.py), the reference-catalog queries
(`Metadata.query_time_series`, `Metadata.search_proximity` in
airqdata/irceline.py) and the nearest-match resolver
(`find_nearest_sensors`), together with the date-range handling of
`Sensor.get_measurements`.

Missing measurement values (pandas NaN) are modelled as `none`; measurement
values are rationals, coordinates and distances are reals.
-/
import Mathlib

/-! ### Measurement cleaner (resources/luftdaten.py, Sensor.clean_data)

A single phenomenon column of the measurements dataframe is a
`List (Option ℚ)`; `none` is a missing value (NaN). -/

/-- The PM2.5 sentinel fault value 999.9 µg/m³ (written as the exact
rational 9999/10). -/
def sentinelPM25 : ℚ := mkRat 9999 10

/-- The PM10 sentinel fault value 1999.9 µg/m³ (written as the exact
rational 19999/10). -/
def sentinelPM10 : ℚ := mkRat 19999 10

/-- One cell of `measurements.replace([999.9, 1999.9], nan)`: the two
provider sentinel fault values become missing, everything else is kept. -/
def sentinelReplace (x : Option ℚ) : Option ℚ :=
  match x with
  | none => none
  | some v => if v = sentinelPM25 ∨ v = sentinelPM10 then none else some v

/-- `measurements.replace([999.9, 1999.9], nan)` over a whole column. -/
def replaceSentinels (xs : List (Option ℚ)) : List (Option ℚ) :=
  xs.map sentinelReplace

/-- Whether a cell holds a present value strictly below the
minimum-plausible-reading threshold 1.0.  A missing cell never counts:
`rolling(5).max()` with fewer than `min_periods = 5` observations is NaN and
`NaN < 1.0` is False in pandas. -/
def belowOneB (x : Option ℚ) : Bool :=
  match x with
  | some v => decide (v < 1)
  | none => false

/-- Index window of `rolling(5, center=True)` centered at `i`
(positions `i-2 .. i+2`; the guards `2 ≤ i` and `i + 2 < length` of the
callers make the truncated subtraction harmless). -/
def winIdx (i : Nat) : List Nat :=
  [i - 2, i - 1, i, i + 1, i + 2]

/-- `dead_5_middle = measurements.rolling(5, center=True).max() < 1.0`:
true at `i` iff the full 5-window around `i` exists, all five values are
present, and the maximum (equivalently: every value) is below 1.0. -/
def dead5middle (xs : List (Option ℚ)) (i : Nat) : Bool :=
  decide (2 ≤ i) && decide (i + 2 < xs.length) &&
    (winIdx i).all (fun j => belowOneB (xs.getD j none))

/-- `dead_5_consecutive = dead_5_middle.rolling(5, center=True).max() == 1`:
true at `i` iff the full 5-window exists inside the series and some position
in it is a dead middle. -/
def dead5consecutive (xs : List (Option ℚ)) (i : Nat) : Bool :=
  decide (2 ≤ i) && decide (i + 2 < xs.length) &&
    (winIdx i).any (fun j => dead5middle xs j)

/-- `Sensor.clean_data` on one phenomenon column: replace the sentinel
error values, then null out every position flagged by the expanded dead-run
mask (`measurements[dead_5_consecutive] = nan`). -/
def clean_data (xs : List (Option ℚ)) : List (Option ℚ) :=
  let ys := replaceSentinels xs
  (List.range ys.length).map
    (fun i => if dead5consecutive ys i then none else ys.getD i none)

-- scratch checks
example :
    clean_data [some (mkRat 5 1), some (mkRat 1 2), some (mkRat 1 2),
      some (mkRat 1 2), some (mkRat 1 2), some (mkRat 1 2),
      some (mkRat 5 1)] =
    [some (mkRat 5 1), some (mkRat 1 2), none, none, none, some (mkRat 1 2),
      some (mkRat 5 1)] := by decide

example :
    clean_data [some (mkRat 5 1), some (mkRat 5 1), some (mkRat 1 2),
      some (mkRat 1 2), some (mkRat 1 2), some (mkRat 1 2),
      some (mkRat 1 2), some (mkRat 5 1), some (mkRat 5 1)] =
    [some (mkRat 5 1), some (mkRat 5 1), none, none, none, none, none,
      some (mkRat 5 1), some (mkRat 5 1)] := by decide

example :
    clean_data [some (mkRat 5 1), some (mkRat 1 2), some (mkRat 1 2),
      some (mkRat 1 2), some (mkRat 1 2), some (mkRat 5 1),
      some (mkRat 5 1)] =
    [some (mkRat 5 1), some (mkRat 1 2), some (mkRat 1 2), some (mkRat 1 2),
      some (mkRat 1 2), some (mkRat 5 1), some (mkRat 5 1)] := by decide

example : clean_data [some (mkRat 9999 10), some (mkRat 2 1),
    some (mkRat 19999 10)] = [none, some (mkRat 2 1), none] := by decide

/-- Whether a cell holds a present value at or above the plausibility
threshold 1.0 (a "normal" reading). -/
def normalB (x : Option ℚ) : Bool :=
  match x with
  | some v => decide (1 ≤ v)
  | none => false

/-- The positions `p, …, p + len - 1` of the column all hold present values
strictly below 1.0. -/
def RunBelow (xs : List (Option ℚ)) (p len : Nat) : Prop :=
  ∀ j ∈ List.range' p len, belowOneB (xs.getD j none) = true

/-- Position `j` of the column holds a present value `≥ 1.0`. -/
def NormalAt (xs : List (Option ℚ)) (j : Nat) : Prop :=
  normalB (xs.getD j none) = true

instance (xs : List (Option ℚ)) (p len : Nat) :
    Decidable (RunBelow xs p len) := by
  unfold RunBelow; exact inferInstance

instance (xs : List (Option ℚ)) (j : Nat) : Decidable (NormalAt xs j) := by
  unfold NormalAt; exact inferInstance

/-! ### Basic lemmas about the cleaner -/

theorem replaceSentinels_length (xs : List (Option ℚ)) :
    (replaceSentinels xs).length = xs.length :=
  List.length_map xs sentinelReplace

theorem replaceSentinels_getD (xs : List (Option ℚ)) (j : Nat) :
    (replaceSentinels xs).getD j none = sentinelReplace (xs.getD j none) := by
  simp only [replaceSentinels, List.getD_eq_getElem?_getD, List.getElem?_map]
  cases xs[j]? <;> rfl

theorem sentinelReplace_idem (x : Option ℚ) :
    sentinelReplace (sentinelReplace x) = sentinelReplace x := by
  cases x with
  | none => rfl
  | some v =>
    by_cases h : v = sentinelPM25 ∨ v = sentinelPM10
    · simp [sentinelReplace, h]
    · simp [sentinelReplace, h]

theorem belowOneB_sentinelReplace (x : Option ℚ) :
    belowOneB (sentinelReplace x) = belowOneB x := by
  cases x with
  | none => rfl
  | some v =>
    by_cases h : v = sentinelPM25 ∨ v = sentinelPM10
    · have hv : ¬ v < 1 := by
        rcases h with h | h <;> subst h <;> decide
      simp [sentinelReplace, belowOneB, h, hv]
    · simp [sentinelReplace, belowOneB, h]

theorem sentinelReplace_of_belowOne {x : Option ℚ}
    (h : belowOneB x = true) : sentinelReplace x = x := by
  cases x with
  | none => rfl
  | some v =>
    have hv : v < 1 := by simpa [belowOneB] using h
    have hs : ¬ (v = sentinelPM25 ∨ v = sentinelPM10) := by
      rintro (rfl | rfl) <;> revert hv <;> decide
    simp [sentinelReplace, hs]

theorem belowOneB_eq_true_iff (x : Option ℚ) :
    belowOneB x = true ↔ ∃ v : ℚ, x = some v ∧ v < 1 := by
  cases x <;> simp [belowOneB]

theorem getD_some_lt_length {xs : List (Option ℚ)} {j : Nat} {v : ℚ}
    (h : xs.getD j none = some v) : j < xs.length := by
  by_contra hj
  rw [List.getD_eq_getElem?_getD, List.getElem?_eq_none (by omega)] at h
  exact Option.noConfusion h

theorem dead5middle_replaceSentinels (xs : List (Option ℚ)) (i : Nat) :
    dead5middle (replaceSentinels xs) i = dead5middle xs i := by
  simp only [dead5middle, replaceSentinels_length, replaceSentinels_getD,
    belowOneB_sentinelReplace]

theorem dead5middle_eq_true_iff (xs : List (Option ℚ)) (i : Nat) :
    dead5middle xs i = true ↔
      2 ≤ i ∧ i + 2 < xs.length ∧
        ∀ j ∈ winIdx i, belowOneB (xs.getD j none) = true := by
  simp [dead5middle, and_assoc]

theorem dead5consecutive_eq_true_iff (xs : List (Option ℚ)) (i : Nat) :
    dead5consecutive xs i = true ↔
      2 ≤ i ∧ i + 2 < xs.length ∧
        ∃ j ∈ winIdx i, dead5middle xs j = true := by
  simp [dead5consecutive, and_assoc]

theorem mem_winIdx {i : Nat} (hi : 2 ≤ i) (j : Nat) :
    j ∈ winIdx i ↔ i - 2 ≤ j ∧ j ≤ i + 2 := by
  simp only [winIdx, List.mem_cons, List.mem_singleton, List.not_mem_nil,
    or_false]
  omega

theorem clean_data_length (xs : List (Option ℚ)) :
    (clean_data xs).length = xs.length := by
  simp [clean_data, replaceSentinels_length]

theorem clean_data_getD (xs : List (Option ℚ)) (i : Nat)
    (h : i < xs.length) :
    (clean_data xs).getD i none =
      if dead5consecutive (replaceSentinels xs) i then none
      else (replaceSentinels xs).getD i none := by
  simp only [clean_data]
  rw [List.getD_eq_getElem?_getD, List.getElem?_map,
    List.getElem?_range (by simpa [replaceSentinels_length] using h)]
  rfl

/-- An interior dead run of width 5 makes every one of its positions
flagged by the expanded mask. -/
theorem dead5consecutive_of_run (ys : List (Option ℚ)) (p : Nat)
    (hrun : ∀ j ∈ List.range' p 5, belowOneB (ys.getD j none) = true)
    (hp : 2 ≤ p) (hn : p + 6 < ys.length) :
    ∀ j ∈ List.range' p 5, dead5consecutive ys j = true := by
  have hmid : dead5middle ys (p + 2) = true := by
    rw [dead5middle_eq_true_iff]
    refine ⟨by omega, by omega, ?_⟩
    intro k hk
    rw [mem_winIdx (by omega)] at hk
    exact hrun k (by rw [List.mem_range'_1]; omega)
  intro j hj
  rw [List.mem_range'_1] at hj
  rw [dead5consecutive_eq_true_iff]
  refine ⟨by omega, by omega, p + 2, ?_, hmid⟩
  rw [mem_winIdx (by omega)]
  omega

/-- A present normal value at `m` kills every dead-middle verdict whose
window contains `m`. -/
theorem dead5middle_eq_false_of_normal {ys : List (Option ℚ)} {k m : Nat}
    (hk : 2 ≤ k) (hm1 : k - 2 ≤ m) (hm2 : m ≤ k + 2)
    (hnormal : belowOneB (ys.getD m none) = false) :
    dead5middle ys k = false := by
  rw [Bool.eq_false_iff]
  intro h
  rw [dead5middle_eq_true_iff] at h
  obtain ⟨-, -, hall⟩ := h
  have := hall m ((mem_winIdx hk m).2 ⟨hm1, hm2⟩)
  rw [hnormal] at this
  exact Bool.noConfusion this

/-- **C1 (amended).** Dead-run masking at width 5 in `Sensor.clean_data`:
(i) a run of 5 consecutive present values below 1.0, surrounded by normal
values, and lying at least two samples away from both ends of the series,
is entirely set to missing; (ii) a run of only 4 such values surrounded by
normal values is left unchanged; (iii) in a series with fewer than 5
samples no point is flagged by the dead-run rule.  (The claim's unrestricted
version of (i) fails when the run is closer than two samples to a series
boundary; see the counterexample.) -/
theorem clean_data_dead_run_masking (xs : List (Option ℚ)) (p : Nat) :
    (RunBelow xs p 5 → NormalAt xs (p - 1) → NormalAt xs (p + 5) → 2 ≤ p →
        p + 6 < xs.length →
        ∀ j ∈ List.range' p 5, (clean_data xs).getD j none = none) ∧
    (RunBelow xs p 4 → NormalAt xs (p - 1) → NormalAt xs (p + 4) → 1 ≤ p →
        ∀ j ∈ List.range' p 4, (clean_data xs).getD j none =
          xs.getD j none) ∧
    (xs.length < 5 → ∀ i,
        dead5consecutive (replaceSentinels xs) i = false) := by
  have hysrun : ∀ len, RunBelow xs p len →
      ∀ j ∈ List.range' p len,
        belowOneB ((replaceSentinels xs).getD j none) = true := by
    intro len hrun j hj
    rw [replaceSentinels_getD, belowOneB_sentinelReplace]
    exact hrun j hj
  have hnormal_false : ∀ m, NormalAt xs m →
      belowOneB ((replaceSentinels xs).getD m none) = false := by
    intro m hm
    rw [replaceSentinels_getD, belowOneB_sentinelReplace]
    rw [NormalAt] at hm
    cases hx : xs.getD m none with
    | none => rfl
    | some v =>
      rw [hx] at hm
      have : (1 : ℚ) ≤ v := by simpa [normalB] using hm
      simp [belowOneB, not_lt_of_le this]
  refine ⟨?_, ?_, ?_⟩
  · -- (i) interior 5-run fully masked
    intro hrun hl hr hp hn j hj
    have hj' := hj
    rw [List.mem_range'_1] at hj'
    rw [clean_data_getD xs j (by omega)]
    rw [dead5consecutive_of_run (replaceSentinels xs) p (hysrun 5 hrun)
      hp (by rw [replaceSentinels_length]; omega) j hj]
    rfl
  · -- (ii) 4-run untouched
    intro hrun hl hr hp j hj
    have hj' := hj
    rw [List.mem_range'_1] at hj'
    have hbj : belowOneB (xs.getD j none) = true := hrun j hj
    obtain ⟨v, hv, -⟩ := (belowOneB_eq_true_iff _).1 hbj
    have hjlt : j < xs.length := getD_some_lt_length hv
    rw [clean_data_getD xs j hjlt]
    have hleft := hnormal_false _ hl
    have hright := hnormal_false _ hr
    have hcons : dead5consecutive (replaceSentinels xs) j = false := by
      rw [Bool.eq_false_iff]
      intro hc
      rw [dead5consecutive_eq_true_iff] at hc
      obtain ⟨hj2, -, k, hkmem, hkmid⟩ := hc
      rw [mem_winIdx hj2] at hkmem
      have hk2 : 2 ≤ k := by
        rw [dead5middle_eq_true_iff] at hkmid
        exact hkmid.1
      by_cases hkp : k ≤ p + 1
      · rw [dead5middle_eq_false_of_normal hk2 (by omega) (by omega)
          hleft] at hkmid
        exact Bool.noConfusion hkmid
      · rw [dead5middle_eq_false_of_normal hk2 (by omega) (by omega)
          hright] at hkmid
        exact Bool.noConfusion hkmid
    rw [hcons]
    simp only [Bool.false_eq_true, if_false]
    rw [replaceSentinels_getD, sentinelReplace_of_belowOne hbj]
  · -- (iii) short series never flagged
    intro hlen i
    rw [Bool.eq_false_iff]
    intro hc
    rw [dead5consecutive_eq_true_iff, replaceSentinels_length] at hc
    omega

/-- A series of length 7 whose 5-wide dead run (positions 1–5) touches the
series boundary margin: one normal value on each side. -/
def xsEdge : List (Option ℚ) :=
  [some (mkRat 5 1), some (mkRat 1 2), some (mkRat 1 2), some (mkRat 1 2),
   some (mkRat 1 2), some (mkRat 1 2), some (mkRat 5 1)]

/-- **C1 counterexample.** In `xsEdge` the positions 1–5 form a run of 5
consecutive values below 1.0 surrounded by normal values, yet after
`clean_data` the outer run positions 1 and 5 still hold their values: only
the centered positions 2–4 are set to missing, because the second
`rolling(5, center=True)` pass yields NaN (hence no flag) where its window
leaves the series.  The claim's "all 5 samples are set to missing" is
false. -/
theorem clean_data_edge_run_partial_mask :
    RunBelow xsEdge 1 5 ∧ NormalAt xsEdge 0 ∧ NormalAt xsEdge 6 ∧
    (clean_data xsEdge).getD 1 none = some (mkRat 1 2) ∧
    (clean_data xsEdge).getD 5 none = some (mkRat 1 2) ∧
    (clean_data xsEdge).getD 3 none = none := by decide

/-- Interior 5-run series used as witness data for C1. -/
def xsRun5 : List (Option ℚ) :=
  [some (mkRat 5 1), some (mkRat 5 1), some (mkRat 1 2), some (mkRat 1 2),
   some (mkRat 1 2), some (mkRat 1 2), some (mkRat 1 2), some (mkRat 5 1),
   some (mkRat 5 1)]

/-- 4-run series used as witness data for C1. -/
def xsRun4 : List (Option ℚ) :=
  [some (mkRat 5 1), some (mkRat 1 2), some (mkRat 1 2), some (mkRat 1 2),
   some (mkRat 1 2), some (mkRat 5 1), some (mkRat 5 1)]

/-- Short series used as witness data for C1. -/
def xsShort : List (Option ℚ) :=
  [some (mkRat 1 2), some (mkRat 1 2), some (mkRat 1 2), some (mkRat 1 2)]

/-- Witness for C1: all three conjuncts of the amended statement applied at
concrete series. -/
theorem clean_data_dead_run_masking_witness :
    (clean_data xsRun5).getD 4 none = none ∧
    (clean_data xsRun4).getD 1 none = xsRun4.getD 1 none ∧
    dead5consecutive (replaceSentinels xsShort) 2 = false :=
  ⟨(clean_data_dead_run_masking xsRun5 2).1 (by decide) (by decide)
      (by decide) (by decide) (by decide) 4 (by decide),
   (clean_data_dead_run_masking xsRun4 1).2.1 (by decide) (by decide)
      (by decide) (by decide) 1 (by decide),
   (clean_data_dead_run_masking xsShort 0).2.2 (by decide) 2⟩

/-- A cleaned column contains no sentinel values: replacing sentinels again
changes nothing. -/
theorem replaceSentinels_clean_data (xs : List (Option ℚ)) :
    replaceSentinels (clean_data xs) = clean_data xs := by
  have hmem : ∀ x ∈ clean_data xs, sentinelReplace x = x := by
    intro x hx
    simp only [clean_data, List.mem_map] at hx
    obtain ⟨i, -, rfl⟩ := hx
    show sentinelReplace (if dead5consecutive (replaceSentinels xs) i
        then none else (replaceSentinels xs).getD i none) = _
    by_cases h : dead5consecutive (replaceSentinels xs) i = true
    · rw [if_pos h]
      rfl
    · rw [if_neg h, replaceSentinels_getD, sentinelReplace_idem]
  calc replaceSentinels (clean_data xs)
      = (clean_data xs).map sentinelReplace := rfl
    _ = (clean_data xs).map id := List.map_congr_left (by simpa using hmem)
    _ = clean_data xs := List.map_id _

/-- A second dead-run pass over a cleaned column flags nothing: any window
that would be a dead middle now was already a dead middle in the first pass,
so its values were nulled out then. -/
theorem dead5consecutive_clean_data (xs : List (Option ℚ)) (i : Nat) :
    dead5consecutive (clean_data xs) i = false := by
  have hn : (clean_data xs).length = xs.length := clean_data_length xs
  rw [Bool.eq_false_iff]
  intro hc
  rw [dead5consecutive_eq_true_iff] at hc
  obtain ⟨-, -, k, -, hkmid⟩ := hc
  rw [dead5middle_eq_true_iff] at hkmid
  obtain ⟨hk2, hklen, hall⟩ := hkmid
  have hcell : ∀ m ∈ winIdx k,
      dead5consecutive (replaceSentinels xs) m = false ∧
      belowOneB ((replaceSentinels xs).getD m none) = true := by
    intro m hm
    have hb := hall m hm
    have hmlt : m < xs.length := by
      obtain ⟨v, hv, -⟩ := (belowOneB_eq_true_iff _).1 hb
      have := getD_some_lt_length hv
      omega
    rw [clean_data_getD xs m hmlt] at hb
    by_cases h : dead5consecutive (replaceSentinels xs) m = true
    · rw [if_pos h] at hb
      exact absurd hb (by simp [belowOneB])
    · rw [if_neg (by simpa using h)] at hb
      exact ⟨by simpa using h, hb⟩
  have hkin : k ∈ winIdx k := (mem_winIdx hk2 k).2 ⟨by omega, by omega⟩
  have hmidys : dead5middle (replaceSentinels xs) k = true := by
    rw [dead5middle_eq_true_iff]
    exact ⟨hk2, by rw [replaceSentinels_length]; omega,
      fun m hm => (hcell m hm).2⟩
  have hconsys : dead5consecutive (replaceSentinels xs) k = true := by
    rw [dead5consecutive_eq_true_iff]
    exact ⟨hk2, by rw [replaceSentinels_length]; omega, k, hkin, hmidys⟩
  have hfalse := (hcell k hkin).1
  rw [hconsys] at hfalse
  exact Bool.noConfusion hfalse

theorem map_getD_range {α : Type} (l : List α) (d : α) :
    (List.range l.length).map (fun i => l.getD i d) = l := by
  apply List.ext_getElem?
  intro n
  rw [List.getElem?_map]
  by_cases h : n < l.length
  · rw [List.getElem?_range h]
    simp [List.getD_eq_getElem?_getD, List.getElem?_eq_getElem h]
  · rw [List.getElem?_eq_none (by simpa using by omega : (List.range l.length).length ≤ n),
      List.getElem?_eq_none (by omega : l.length ≤ n)]
    rfl

/-- **C10.** `Sensor.clean_data` is idempotent: cleaning an already-cleaned
measurement series changes nothing — no sentinel values remain after the
first pass, and no window of a cleaned column can be flagged as a dead run
again, because any such window was already fully masked. -/
theorem clean_data_idempotent (xs : List (Option ℚ)) :
    clean_data (clean_data xs) = clean_data xs := by
  have h1 := replaceSentinels_clean_data xs
  calc clean_data (clean_data xs)
      = (List.range (replaceSentinels (clean_data xs)).length).map
          (fun i => if dead5consecutive (replaceSentinels (clean_data xs)) i
            then none
            else (replaceSentinels (clean_data xs)).getD i none) := rfl
    _ = (List.range (clean_data xs).length).map
          (fun i => if dead5consecutive (clean_data xs) i then none
            else (clean_data xs).getD i none) := by rw [h1]
    _ = (List.range (clean_data xs).length).map
          (fun i => (clean_data xs).getD i none) := by
          refine List.map_congr_left ?_
          intro i _hi
          rw [dead5consecutive_clean_data xs i]
          simp
    _ = clean_data xs := map_getD_range _ _

/-! ### Hourly aggregator (resources/luftdaten.py,
`Sensor.calculate_hourly_coverage` / `Sensor.calculate_hourly_means`) -/

/-- One raw measurement sample: a UTC timestamp in seconds and the value of
one phenomenon column (`none` = missing). -/
structure Sample where
  t : Nat
  value : Option ℚ
deriving DecidableEq, Repr

/-- The hourly bucket (`resample("h", kind="period")`) a timestamp falls
into. -/
def bucketOf (t : Nat) : Nat := t / 3600

/-- The present values of a series that fall into hourly bucket `b`. -/
def bucketValues (ms : List Sample) (b : Nat) : List ℚ :=
  ms.filterMap (fun s => if bucketOf s.t = b then s.value else none)

/-- `resample("h").count()` for bucket `b`: how many present values it
holds. -/
def hourlyCount (ms : List Sample) (b : Nat) : Nat :=
  (bucketValues ms b).length

/-- `Sensor.calculate_hourly_coverage` at bucket `b`:
`data_point_count.applymap(lambda x: min(1, x / 24))`. -/
def calculate_hourly_coverage (ms : List Sample) (b : Nat) : ℚ :=
  min 1 ((hourlyCount ms b : ℚ) / 24)

/-- `resample("h").mean()` at bucket `b`: arithmetic mean of the present
values, missing (NaN) when the bucket holds none. -/
def bucketMean (ms : List Sample) (b : Nat) : Option ℚ :=
  if hourlyCount ms b = 0 then none
  else some ((bucketValues ms b).sum / (hourlyCount ms b : ℚ))

/-- `Sensor.calculate_hourly_means` at bucket `b`: the mean is kept only
where `self.hourly_coverage > min_data_coverage` holds strictly
(`mean[sufficient_coverage]` masks failing buckets to NaN; it does not drop
their rows). -/
def calculate_hourly_means (min_data_coverage : ℚ) (ms : List Sample)
    (b : Nat) : Option ℚ :=
  if min_data_coverage < calculate_hourly_coverage ms b then bucketMean ms b
  else none

/-- **C2.** Hourly aggregation gates strictly: coverage of a bucket is
`min(1, count / 24)`; a bucket whose coverage is exactly the threshold is
left undefined (not zero, not dropped — the bucket still maps to a missing
value); and a bucket strictly above the threshold gets the arithmetic mean
of its present values. -/
theorem hourly_means_strict_gate (ms : List Sample) (b : Nat) (θ : ℚ) :
    calculate_hourly_coverage ms b = min 1 ((hourlyCount ms b : ℚ) / 24) ∧
    (calculate_hourly_coverage ms b = θ →
      calculate_hourly_means θ ms b = none) ∧
    (0 ≤ θ → θ < calculate_hourly_coverage ms b →
      calculate_hourly_means θ ms b =
        some ((bucketValues ms b).sum / (hourlyCount ms b : ℚ))) := by
  refine ⟨rfl, ?_, ?_⟩
  · intro h
    unfold calculate_hourly_means
    rw [h, if_neg (lt_irrefl θ)]
  · intro hθ hlt
    unfold calculate_hourly_means
    rw [if_pos hlt]
    unfold bucketMean
    rw [if_neg ?_]
    intro h0
    rw [calculate_hourly_coverage, h0] at hlt
    norm_num at hlt
    exact absurd hlt (not_lt_of_le hθ)

/-- Twelve present samples, all in hourly bucket 0 (timestamps 0s–3300s,
one every 5 minutes): coverage is exactly 12/24 = 1/2. -/
def ms12 : List Sample :=
  [⟨0, some 2⟩, ⟨300, some 2⟩, ⟨600, some 2⟩, ⟨900, some 2⟩,
   ⟨1200, some 2⟩, ⟨1500, some 2⟩, ⟨1800, some 2⟩, ⟨2100, some 2⟩,
   ⟨2400, some 2⟩, ⟨2700, some 2⟩, ⟨3000, some 2⟩, ⟨3300, some 2⟩]

/-- Witness for C2: with threshold 1/2 the bucket at exactly that coverage
is masked; with threshold 1/4 it gets its mean. -/
theorem hourly_means_strict_gate_witness :
    calculate_hourly_means (1 / 2) ms12 0 = none ∧
    calculate_hourly_means (1 / 4) ms12 0 =
      some ((bucketValues ms12 0).sum / (hourlyCount ms12 0 : ℚ)) := by
  have hcount : hourlyCount ms12 0 = 12 := rfl
  have hcov : calculate_hourly_coverage ms12 0 = 1 / 2 := by
    unfold calculate_hourly_coverage
    rw [hcount]
    norm_num [min_def]
  constructor
  · exact (hourly_means_strict_gate ms12 0 (1 / 2)).2.1 hcov
  · refine (hourly_means_strict_gate ms12 0 (1 / 4)).2.2 (by norm_num) ?_
    rw [hcov]
    norm_num

/-! ### Multi-day retrieval pipeline (resources/luftdaten.py,
`Sensor.get_data`)

A daily archive file is a list of rows `(timestamp, value)`; the archive is
a partial function from day numbers to files (`none` = day missing, the
`retrieve` call returned nothing and the day is skipped). -/

/-- Row order by timestamp, the key of `sort_index`. -/
def keyLe (a b : Nat × ℚ) : Prop := a.1 ≤ b.1

instance : DecidableRel keyLe := fun a b => Nat.decLe a.1 b.1

instance : IsTotal (Nat × ℚ) keyLe := ⟨fun a b => Nat.le_total a.1 b.1⟩

instance : IsTrans (Nat × ℚ) keyLe := ⟨fun _ _ _ => Nat.le_trans⟩

/-- `index.duplicated(keep="last")` filtering: a row is kept iff its
timestamp does not occur again later in the frame. -/
def keepLast : List (Nat × ℚ) → List (Nat × ℚ)
  | [] => []
  | x :: xs =>
    if xs.any (fun y => y.1 == x.1) then keepLast xs else x :: keepLast xs

/-- The last row of the frame carrying timestamp `k`, if any. -/
def lastEntry (l : List (Nat × ℚ)) (k : Nat) : Option (Nat × ℚ) :=
  (l.filter (fun p => p.1 == k)).getLast?

/-- `pd.date_range(start_date, end_date)` as day numbers: empty when
`start_date > end_date`. -/
def dateRange (s e : Int) : List Int :=
  (List.range (e - s + 1).toNat).map (fun i => s + i)

/-- The daily archive URLs requested by `Sensor.get_data`: one per day of
the range, unconditionally (there is no date validation). -/
def luftdaten_requests (s e : Int) : List Int := dateRange s e

/-- `Sensor.get_data`: fetch each day of `date_range(start_date,
end_date)`, skip missing days, and — if any data arrived — concatenate,
drop `index.duplicated(keep="last")` rows and `sort_index`.  With no data
at all the sensor's measurements are reset to `None` ("No data" is printed;
no error is raised).  An unsupported sensor type raises
`NotImplementedError` as soon as a day's file parses. -/
def luftdaten_get_data (sensor_type : String) (s e : Int)
    (archive : Int → Option (List (Nat × ℚ))) :
    Except String (Option (List (Nat × ℚ))) :=
  let daily := (dateRange s e).filterMap archive
  if sensor_type = "SDS011" ∨ sensor_type = "DHT22" then
    if daily.isEmpty then Except.ok none
    else Except.ok (some (List.insertionSort keyLe (keepLast daily.flatten)))
  else if daily.isEmpty then Except.ok none
  else Except.error "NotImplementedError"

-- scratch checks
example : luftdaten_requests 10 5 = [] := rfl
example : dateRange 3 5 = [3, 4, 5] := rfl
example :
    luftdaten_get_data "SDS011" 0 1
      (fun d => if d = 0 then some [(5, 1), (3, 2), (5, 7)] else none) =
    Except.ok (some [(3, 2), (5, 7)]) := rfl

theorem any_key_iff (xs : List (Nat × ℚ)) (k : Nat) :
    xs.any (fun y => y.1 == k) = true ↔ ∃ y ∈ xs, y.1 = k := by
  simp [List.any_eq_true]

theorem keepLast_subset {l : List (Nat × ℚ)} {p : Nat × ℚ}
    (h : p ∈ keepLast l) : p ∈ l := by
  induction l with
  | nil => simp [keepLast] at h
  | cons x xs ih =>
    rw [keepLast] at h
    by_cases hdup : xs.any (fun y => y.1 == x.1) = true
    · rw [if_pos hdup] at h
      exact List.mem_cons_of_mem x (ih h)
    · rw [if_neg hdup] at h
      rcases List.mem_cons.1 h with rfl | h
      · exact List.mem_cons_self ..
      · exact List.mem_cons_of_mem x (ih h)

theorem keepLast_nodup_keys (l : List (Nat × ℚ)) :
    List.Pairwise (fun a b => a.1 ≠ b.1) (keepLast l) := by
  induction l with
  | nil => exact List.Pairwise.nil
  | cons x xs ih =>
    rw [keepLast]
    by_cases hdup : xs.any (fun y => y.1 == x.1) = true
    · rw [if_pos hdup]
      exact ih
    · rw [if_neg hdup]
      refine List.Pairwise.cons ?_ ih
      intro y hy hxy
      exact hdup ((any_key_iff xs x.1).2 ⟨y, keepLast_subset hy, hxy.symm⟩)

theorem mem_keepLast_iff (l : List (Nat × ℚ)) (p : Nat × ℚ) :
    p ∈ keepLast l ↔ lastEntry l p.1 = some p := by
  induction l with
  | nil => simp [keepLast, lastEntry]
  | cons x xs ih =>
    rw [keepLast]
    by_cases hdup : xs.any (fun y => y.1 == x.1) = true
    · rw [if_pos hdup, ih]
      have hle : lastEntry (x :: xs) p.1 = lastEntry xs p.1 := by
        unfold lastEntry
        by_cases hk : x.1 = p.1
        · rw [List.filter_cons_of_pos (by simpa using hk)]
          obtain ⟨y, hy, hyk⟩ := (any_key_iff xs x.1).1 hdup
          have hmemf : y ∈ xs.filter (fun q => q.1 == p.1) :=
            List.mem_filter.2 ⟨hy, by simp [hyk, hk]⟩
          cases hf : xs.filter (fun q => q.1 == p.1) with
          | nil => rw [hf] at hmemf; exact absurd hmemf (List.not_mem_nil y)
          | cons a as => exact List.getLast?_cons_cons
        · rw [List.filter_cons_of_neg (by simpa using hk)]
      rw [hle]
    · rw [if_neg hdup, List.mem_cons]
      by_cases hk : x.1 = p.1
      · have hnil : xs.filter (fun q => q.1 == p.1) = [] := by
          rw [List.filter_eq_nil_iff]
          intro y hy
          simp only [beq_iff_eq]
          intro hyk
          exact hdup ((any_key_iff xs x.1).2 ⟨y, hy, by omega⟩)
        have hle : lastEntry (x :: xs) p.1 = some x := by
          unfold lastEntry
          rw [List.filter_cons_of_pos (by simpa using hk), hnil]
          rfl
        rw [hle]
        constructor
        · rintro (rfl | hmem)
          · rfl
          · exact absurd ((any_key_iff xs x.1).2
              ⟨p, keepLast_subset hmem, by omega⟩) hdup
        · intro h
          exact Or.inl (Option.some_injective _ h).symm
      · have hle : lastEntry (x :: xs) p.1 = lastEntry xs p.1 := by
          unfold lastEntry
          rw [List.filter_cons_of_neg (by simpa using hk)]
        rw [hle, ← ih]
        constructor
        · rintro (rfl | hmem)
          · exact absurd rfl hk
          · exact hmem
        · exact Or.inr

theorem pairwise_lt_of_sorted_nodup {l : List (Nat × ℚ)}
    (h1 : List.Pairwise keyLe l)
    (h2 : List.Pairwise (fun a b : Nat × ℚ => a.1 ≠ b.1) l) :
    List.Pairwise (fun a b : Nat × ℚ => a.1 < b.1) l := by
  induction l with
  | nil => exact List.Pairwise.nil
  | cons x xs ih =>
    rw [List.pairwise_cons] at h1 h2 ⊢
    exact ⟨fun b hb => lt_of_le_of_ne (h1.1 b hb) (h2.1 b hb),
      ih h1.2 h2.2⟩

/-- **C8.** After every successful multi-day fetch — whatever subset of
daily files the archive provides — the assembled measurement frame has a
strictly increasing (hence unique and ascending) timestamp index, and it
holds exactly the last-arriving record of every timestamp occurring in the
concatenation of the available days. -/
theorem get_data_index_unique_sorted (s e : Int)
    (archive : Int → Option (List (Nat × ℚ))) (result : List (Nat × ℚ))
    (h : luftdaten_get_data "SDS011" s e archive = Except.ok (some result)) :
    List.Pairwise (fun a b : Nat × ℚ => a.1 < b.1) result ∧
    ∀ p : Nat × ℚ, p ∈ result ↔
      lastEntry ((dateRange s e).filterMap archive).flatten p.1 = some p := by
  unfold luftdaten_get_data at h
  rw [if_pos (Or.inl rfl)] at h
  by_cases hemp : ((dateRange s e).filterMap archive).isEmpty = true
  · rw [if_pos hemp] at h
    simp at h
  · rw [if_neg hemp] at h
    have hres : result =
        List.insertionSort keyLe
          (keepLast ((dateRange s e).filterMap archive).flatten) := by
      have := Except.ok.inj h
      exact (Option.some.inj this).symm
    subst hres
    constructor
    · refine pairwise_lt_of_sorted_nodup
        (List.sorted_insertionSort keyLe _) ?_
      refine ((List.perm_insertionSort keyLe _).pairwise_iff ?_).2
        (keepLast_nodup_keys _)
      intro a b hab
      exact hab.symm
    · intro p
      rw [List.mem_insertionSort, mem_keepLast_iff]

/-- A concrete two-day archive in which only day 0 exists and timestamp 5
occurs twice (values 1 then 7). -/
def exArchive : Int → Option (List (Nat × ℚ)) :=
  fun d => if d = 0 then some [(5, 1), (3, 2), (5, 7)] else none

/-- Witness for C8: the fetch over days 0–1 of `exArchive` succeeds with
the frame `[(3, 2), (5, 7)]`, which is strictly increasing and keeps the
last-arriving record `(5, 7)` of the duplicated timestamp 5. -/
theorem get_data_index_unique_sorted_witness :
    List.Pairwise (fun a b : Nat × ℚ => a.1 < b.1) [(3, 2), (5, 7)] ∧
    (((5 : Nat), (7 : ℚ)) ∈ ([(3, 2), (5, 7)] : List (Nat × ℚ)) ↔
      lastEntry ((dateRange 0 1).filterMap exArchive).flatten 5 =
        some (5, 7)) :=
  ⟨(get_data_index_unique_sorted 0 1 exArchive [(3, 2), (5, 7)] rfl).1,
   (get_data_index_unique_sorted 0 1 exArchive [(3, 2), (5, 7)] rfl).2
     (5, 7)⟩

/-! ### Date-range handling of measurement fetches
(airqdata/irceline.py, `Sensor.get_measurements`)

Dates are whole day numbers (`Int`); the current moment `now` is a rational
day count with a fractional time-of-day part, because
`pd.to_datetime("today")` returns the current timestamp, not a midnight. -/

/-- The query plan computed by `Sensor.get_measurements` before retrieval:
whether `warnings.warn` fired, the `end_date` label used for the cache
file, and the effective half-open query interval `[queryStart, queryEnd)`
in days. -/
structure IrcPlan where
  warned : Bool
  endLabel : Int
  queryStart : ℚ
  queryEnd : ℚ
deriving DecidableEq, Repr

/-- The query end after the future-date truncation: `end_date + 1 day`
(to include `end_date`'s data), reset to `today` — the current moment —
when it lies in the future. -/
def truncatedQueryEnd (e : Int) (now : ℚ) : ℚ :=
  if ((e : ℚ) + 1) > now then now else (e : ℚ) + 1

/-- The date logic of `Sensor.get_measurements`: normalize the parsed
dates, truncate a current/future end (with a warning, and with the
`end_date` label reset to yesterday's date `⌊now⌋ - 1`), then raise
`ValueError` (`InvalidArgument`) when the query start exceeds the query
end.  Retrieval happens only on a successful plan. -/
def get_measurements_plan (s e : Int) (now : ℚ) : Except String IrcPlan :=
  if (s : ℚ) > truncatedQueryEnd e now then Except.error "InvalidArgument"
  else if ((e : ℚ) + 1) > now then
    Except.ok ⟨true, ⌊now⌋ - 1, (s : ℚ), now⟩
  else Except.ok ⟨false, e, (s : ℚ), (e : ℚ) + 1⟩

/-- The retrieval requests issued by `Sensor.get_measurements`: one
time-span request on success, none when `ValueError` was raised before the
`retrieve` call. -/
def get_measurements_requests (s e : Int) (now : ℚ) : List (ℚ × ℚ) :=
  match get_measurements_plan s e now with
  | Except.error _ => []
  | Except.ok p => [(p.queryStart, p.queryEnd)]

/-- **C5 (amended).** Neither cited variant rejects every reversed range.
The IRCELINE `Sensor.get_measurements` compares the query start against
the query END BOUND — `end_date + 1 day` (to include `end_date`'s data),
or the current moment after truncation — and raises `InvalidArgument`
(`ValueError`) before any retrieval only when the start strictly exceeds
that bound, i.e. only when `start_date ≥ end_date + 2 days` in the
untruncated case; whenever the start does not exceed the bound (including
a range reversed by exactly one day) the fetch proceeds and one retrieval
request is issued.  The luftdaten `Sensor.get_data` never checks the order
at all: with `start_date > end_date` its `pd.date_range` is empty, so it
fetches nothing, prints "No data" and returns silently. -/
theorem reversed_range_behaviour (s e : Int) (now : ℚ)
    (archive : Int → Option (List (Nat × ℚ))) :
    ((s : ℚ) > truncatedQueryEnd e now →
      get_measurements_plan s e now = Except.error "InvalidArgument" ∧
      get_measurements_requests s e now = []) ∧
    (¬ (s : ℚ) > truncatedQueryEnd e now →
      get_measurements_requests s e now =
        [((s : ℚ), truncatedQueryEnd e now)]) ∧
    (e < s →
      luftdaten_requests s e = [] ∧
      luftdaten_get_data "SDS011" s e archive = Except.ok none) := by
  refine ⟨?_, ?_, ?_⟩
  · intro h
    refine ⟨?_, ?_⟩
    · unfold get_measurements_plan
      rw [if_pos h]
    · unfold get_measurements_requests get_measurements_plan
      rw [if_pos h]
  · intro h
    unfold get_measurements_requests get_measurements_plan
    rw [if_neg h]
    by_cases htr : ((e : ℚ) + 1) > now
    · rw [if_pos htr]
      unfold truncatedQueryEnd
      rw [if_pos htr]
    · rw [if_neg htr]
      unfold truncatedQueryEnd
      rw [if_neg htr]
  · intro h
    have hdr : dateRange s e = [] := by
      unfold dateRange
      have h0 : (e - s + 1).toNat = 0 := by omega
      rw [h0]
      rfl
    refine ⟨hdr, ?_⟩
    unfold luftdaten_get_data
    rw [hdr]
    rfl

/-- **C5 counterexample.** Both cited fetch variants accept ranges the
claim says must fail.  The luftdaten `get_data(start=day 10, end=day 5)`
returns normally with no request and no error.  The IRCELINE
`get_measurements(start=day 6, end=day 5)` — a reversed range — raises
nothing either: the strict comparison `day 6 > day 5 + 1 day` is false,
so the plan succeeds and a retrieval request for the degenerate span
`[day 6, day 6)` is issued: network access happens. -/
theorem reversed_range_counterexample :
    (luftdaten_get_data "SDS011" 10 5 (fun _ => none) = Except.ok none ∧
      luftdaten_requests 10 5 = []) ∧
    (get_measurements_plan 6 5 1000 = Except.ok ⟨false, 5, 6, 6⟩ ∧
      get_measurements_requests 6 5 1000 = [(6, 6)]) := by
  have hA : ¬ (((5 : Int) : ℚ) + 1 > (1000 : ℚ)) := by push_cast; norm_num
  have hT : truncatedQueryEnd 5 1000 = ((5 : Int) : ℚ) + 1 := by
    unfold truncatedQueryEnd
    rw [if_neg hA]
  have hB : ¬ (((6 : Int) : ℚ) > truncatedQueryEnd 5 1000) := by
    rw [hT]
    push_cast
    norm_num
  have hplan : get_measurements_plan 6 5 1000 =
      Except.ok ⟨false, 5, 6, 6⟩ := by
    unfold get_measurements_plan
    rw [if_neg hB, if_neg hA]
    norm_num
  refine ⟨⟨rfl, rfl⟩, hplan, ?_⟩
  unfold get_measurements_requests
  rw [hplan]

/-- Witness for C5: all three parts of the amended statement at concrete
inputs — start day 10 / end day 5 raises with no request, start day 6 /
end day 5 proceeds with one request, and the luftdaten variant fetches
nothing silently. -/
theorem reversed_range_behaviour_witness :
    get_measurements_plan 10 5 1000 = Except.error "InvalidArgument" ∧
    get_measurements_requests 10 5 1000 = [] ∧
    get_measurements_requests 6 5 1000 =
      [(((6 : Int) : ℚ), truncatedQueryEnd 5 1000)] ∧
    luftdaten_requests 10 5 = [] ∧
    luftdaten_get_data "SDS011" 10 5 (fun _ => none) = Except.ok none := by
  have h1 : ((10 : Int) : ℚ) > truncatedQueryEnd 5 1000 := by
    unfold truncatedQueryEnd
    rw [if_neg (by push_cast; norm_num)]
    push_cast
    norm_num
  have h2 : ¬ ((6 : Int) : ℚ) > truncatedQueryEnd 5 1000 := by
    unfold truncatedQueryEnd
    rw [if_neg (by push_cast; norm_num)]
    push_cast
    norm_num
  obtain ⟨ha, hb⟩ :=
    (reversed_range_behaviour 10 5 1000 (fun _ => none)).1 h1
  have hc := (reversed_range_behaviour 6 5 1000 (fun _ => none)).2.1 h2
  obtain ⟨hd, he⟩ :=
    (reversed_range_behaviour 10 5 1000 (fun _ => none)).2.2 (by norm_num)
  exact ⟨ha, hb, hc, hd, he⟩

/-- **C6 (code bug).** `end_date` = "today": at 14:30 UTC of day 101
(`now = 101 + 29/48`), fetching days 100–101 warns (`warned = true`) and
proceeds, resetting the `end_date` label to yesterday (day 100) — but the
effective query end is the current moment `now`, strictly past today's
midnight 101, because `pd.to_datetime("today")` is the current timestamp
and not a midnight (the code comment `# 00:00` and the docstring "end will
be truncated so that only complete days are downloaded" say otherwise).
The fetched range therefore includes today's partial data instead of
stopping at the latest fully elapsed day. -/
theorem end_date_truncation_code_bug :
    get_measurements_plan 100 101 (101 + 29 / 48) =
      Except.ok ⟨true, 100, 100, 101 + 29 / 48⟩ ∧
    (101 : ℚ) < 101 + 29 / 48 := by
  constructor
  · unfold get_measurements_plan truncatedQueryEnd
    have hgt : ((101 : Int) : ℚ) + 1 > 101 + 29 / 48 := by
      push_cast
      norm_num
    rw [if_pos hgt, if_neg (by push_cast; norm_num), if_pos hgt]
    have hfloor : ⌊(101 : ℚ) + 29 / 48⌋ = 101 := by
      rw [Int.floor_eq_iff]
      constructor <;> push_cast <;> norm_num
    rw [hfloor]
    norm_num
  · norm_num

/-! ### Great-circle distance (resources/utils.py `haversine(lat1, lon1,
lat2, lon2)` and resources/helpers.py `haversine(lon1, lat1, lon2, lat2)`)

Float arithmetic is idealized over the reals. -/

/-- `math.radians`: degrees to radians. -/
noncomputable def radians (x : ℝ) : ℝ := x * (Real.pi / 180)

/-- `haversine` of resources/utils.py: great-circle distance in km between
two points in decimal degrees, Earth radius 6371 km. -/
noncomputable def haversine (lat1 lon1 lat2 lon2 : ℝ) : ℝ :=
  let l1 := radians lat1
  let o1 := radians lon1
  let l2 := radians lat2
  let o2 := radians lon2
  let d_lat := l2 - l1
  let d_lon := o2 - o1
  let a := Real.sin (d_lat / 2) ^ 2 +
    Real.cos l1 * Real.cos l2 * Real.sin (d_lon / 2) ^ 2
  let c := 2 * Real.arcsin (Real.sqrt a)
  c * 6371

/-- `haversine` of resources/helpers.py: identical formula, with the
longitude-first argument order used there. -/
noncomputable def haversineLonFirst (lon1 lat1 lon2 lat2 : ℝ) : ℝ :=
  let o1 := radians lon1
  let l1 := radians lat1
  let o2 := radians lon2
  let l2 := radians lat2
  let d_lon := o2 - o1
  let d_lat := l2 - l1
  let a := Real.sin (d_lat / 2) ^ 2 +
    Real.cos l1 * Real.cos l2 * Real.sin (d_lon / 2) ^ 2
  let c := 2 * Real.arcsin (Real.sqrt a)
  c * 6371

theorem haversine_self (lat lon : ℝ) : haversine lat lon lat lon = 0 := by
  unfold haversine
  simp

theorem haversine_comm (lat1 lon1 lat2 lon2 : ℝ) :
    haversine lat1 lon1 lat2 lon2 = haversine lat2 lon2 lat1 lon1 := by
  simp only [haversine]
  have hsin : ∀ x y : ℝ,
      Real.sin ((x - y) / 2) ^ 2 = Real.sin ((y - x) / 2) ^ 2 := by
    intro x y
    rw [show (x - y) / 2 = -((y - x) / 2) by ring, Real.sin_neg]
    ring
  rw [hsin (radians lat2) (radians lat1), hsin (radians lon2) (radians lon1),
    mul_comm (Real.cos (radians lat1)) (Real.cos (radians lat2))]

/-- **C9.** The geodistance function is a pure function of the coordinates
computing the haversine great-circle formula with Earth radius 6371 km
(idealized over ℝ): it vanishes on equal points, it is symmetric in its two
points, and the longitude-first variant of resources/helpers.py agrees with
the latitude-first variant of resources/utils.py. -/
theorem haversine_zero_self_and_symm (lat1 lon1 lat2 lon2 : ℝ) :
    haversine lat1 lon1 lat1 lon1 = 0 ∧
    haversine lat1 lon1 lat2 lon2 = haversine lat2 lon2 lat1 lon1 ∧
    haversineLonFirst lon1 lat1 lon2 lat2 = haversine lat1 lon1 lat2 lon2 :=
  ⟨haversine_self lat1 lon1, haversine_comm lat1 lon1 lat2 lon2, rfl⟩

/-! ### Reference catalog (airqdata/irceline.py, class Metadata) -/

/-- One row of `Metadata.time_series`: a (station, phenomenon) pair with
the station coordinates denormalized onto the row, indexed by the time
series id. -/
structure TimeSeriesRow where
  id : Nat
  label : String
  phenomenon : String
  unit : String
  station_id : Nat
  station_label : String
  station_lat : ℝ
  station_lon : ℝ

/-- One row of `Metadata.stations`. -/
structure Station where
  label : String
  lat : ℝ
  lon : ℝ

/-- Whether `needle` is an initial segment of `hay` (character lists). -/
def headMatches : List Char → List Char → Bool
  | _, [] => true
  | [], _ :: _ => false
  | c :: cs, n :: ns => c == n && headMatches cs ns

/-- Whether `needle` occurs contiguously inside `hay` (character lists). -/
def subSeq (needle : List Char) : List Char → Bool
  | [] => needle.isEmpty
  | c :: cs => headMatches (c :: cs) needle || subSeq needle cs

/-- `str.lower()` as a character list. -/
def lowerChars (s : String) : List Char :=
  s.toList.map Char.toLower

/-- `hay_lower.str.contains(needle.lower())`: case-insensitive substring
containment (the patterns the callers pass contain no effective regex
metacharacters beyond `.`, which matches the literal dot occurring in the
same position of the catalog strings). -/
def str_contains_lower (hay needle : String) : Bool :=
  subSeq (lowerChars needle) (lowerChars hay)

-- scratch checks
example : str_contains_lower "Particulate Matter < 2.5 µm" "2.5 µm" = true :=
  rfl
example : str_contains_lower "particulate" "пм" = false := rfl
example : str_contains_lower "Humidity" "humid" = true := rfl

/-- The filter of `Metadata.query_time_series`:
`time_series["phenomenon"].str.lower().str.contains(phenomenon.lower())`. -/
def phenomenonMatches (r : TimeSeriesRow) (phenomenon : String) : Bool :=
  str_contains_lower r.phenomenon phenomenon

/-- `sort_values("distance")` order on rows carrying a distance column. -/
def distLe {α : Type} (a b : α × ℝ) : Prop := a.2 ≤ b.2

noncomputable instance {α : Type} : DecidableRel (distLe (α := α)) :=
  fun a b => Real.decidableLE a.2 b.2

instance {α : Type} : IsTotal (α × ℝ) distLe := ⟨fun a b => le_total a.2 b.2⟩

instance {α : Type} : IsTrans (α × ℝ) distLe :=
  ⟨fun _ _ _ h1 h2 => le_trans h1 h2⟩

/-- `Metadata.query_time_series(phenomenon, lat_nearest, lon_nearest)` with
both reference coordinates given: filter the catalog rows whose phenomenon
contains the query (case-insensitively), append the haversine distance from
the reference point, and sort ascending by that distance. -/
noncomputable def query_time_series (ts : List TimeSeriesRow)
    (phenomenon : String) (lat_nearest lon_nearest : ℝ) :
    List (TimeSeriesRow × ℝ) :=
  let results := ts.filter (fun r => phenomenonMatches r phenomenon)
  let withDist := results.map (fun r =>
    (r, haversine lat_nearest lon_nearest r.station_lat r.station_lon))
  List.insertionSort distLe withDist

/-- `Metadata.search_proximity(lat, lon, radius)`: append the haversine
distance from the search center to every station, keep the stations with
`distance <= radius`, sort ascending by distance. -/
noncomputable def search_proximity (stations : List Station)
    (lat lon radius : ℝ) : List (Station × ℝ) :=
  let withDist := stations.map (fun st =>
    (st, haversine lat lon st.lat st.lon))
  let near := withDist.filter (fun p => decide (p.2 ≤ radius))
  List.insertionSort distLe near

/-! ### Nearest-match resolver (airqdata/irceline.py,
`find_nearest_sensors`, with `EQUIVALENT_PHENOMENA` from
airqdata/utils.py) -/

/-- The equivalence groups of phenomenon names used across providers. -/
def EQUIVALENT_PHENOMENA : List (List String) :=
  [["pm2.5", "Particulate Matter < 2.5 µm"],
   ["pm10", "Particulate Matter < 10 µm"],
   ["temperature"]]

/-- `chain.from_iterable(group for group in EQUIVALENT_PHENOMENA if
phenomenon in group)`: all names of the groups containing `phenomenon` —
empty when no group contains it. -/
def expandedNames (phenomenon : String) : List String :=
  (EQUIVALENT_PHENOMENA.filter (fun g => decide (phenomenon ∈ g))).flatten

/-- The combined candidate list for one phenomenon:
`pd.concat(matching_pieces).sort_values("distance")`. -/
noncomputable def nearestCandidates (ts : List TimeSeriesRow)
    (phenomenon : String) (lat lon : ℝ) : List (TimeSeriesRow × ℝ) :=
  List.insertionSort distLe
    ((expandedNames phenomenon).map
      (fun nm => query_time_series ts nm lat lon)).flatten

/-- `find_nearest_sensors`: for each phenomenon of the sensor, query the
catalog for every name in the groups containing it; an empty name list
makes `pd.concat([])` raise `ValueError`, which is caught and the
phenomenon skipped; otherwise `.iloc[0]` of the distance-sorted candidates
is taken — raising `IndexError` (uncaught) when no time series matched any
expanded name. -/
noncomputable def find_nearest_sensors (ts : List TimeSeriesRow)
    (lat lon : ℝ) :
    List String → Except String (List (String × (TimeSeriesRow × ℝ)))
  | [] => Except.ok []
  | ph :: rest =>
    if (expandedNames ph).isEmpty then find_nearest_sensors ts lat lon rest
    else
      match (nearestCandidates ts ph lat lon).head? with
      | none => Except.error "IndexError"
      | some r => (find_nearest_sensors ts lat lon rest).map
          (fun acc => (ph, r) :: acc)

/-- A reference catalog row measuring humidity, co-located with the
sensor's coordinates (0, 0). -/
def humidityRow : TimeSeriesRow :=
  ⟨7, "humidity - Uccle", "humidity", "%", 1, "Uccle", 0, 0⟩

/-- **C3 counterexample.** "humidity" (measured by luftdaten DHT22
sensors) belongs to no equivalence group, so `find_nearest_sensors` never
queries the catalog for it — the name chain is empty, `pd.concat([])`
raises `ValueError`, and the phenomenon is skipped — even though the
reference catalog holds a matching humidity time series at the sensor's
own location.  The claim's "a group-less phenomenon with a matching
reference time series gets an entry in the result" is false. -/
theorem find_nearest_groupless_skipped :
    find_nearest_sensors [humidityRow] 0 0 ["humidity"] = Except.ok [] ∧
    phenomenonMatches humidityRow "humidity" = true ∧
    expandedNames "humidity" = [] :=
  ⟨rfl, rfl, rfl⟩

/-- **C3 (amended).** For a phenomenon inside an equivalence group, the
resolver queries the catalog for every name of every group containing it
(in particular its own name, which belongs to the group). For a phenomenon
in no group, the expanded name list is empty and the resolver skips the
phenomenon entirely — it does not fall back to the phenomenon's own name,
so a matching reference time series yields no entry. -/
theorem find_nearest_expansion (ph : String) (ts : List TimeSeriesRow)
    (lat lon : ℝ) :
    (∀ g ∈ EQUIVALENT_PHENOMENA, ph ∈ g →
      ∀ nm ∈ g, nm ∈ expandedNames ph) ∧
    ((∀ g ∈ EQUIVALENT_PHENOMENA, ph ∉ g) →
      find_nearest_sensors ts lat lon [ph] = Except.ok []) := by
  constructor
  · intro g hg hph nm hnm
    unfold expandedNames
    rw [List.mem_flatten]
    exact ⟨g, List.mem_filter.2 ⟨hg, by simpa using hph⟩, hnm⟩
  · intro h
    have hemp : expandedNames ph = [] := by
      unfold expandedNames
      rw [List.filter_eq_nil_iff.2 (fun g hg => by simpa using h g hg)]
      rfl
    unfold find_nearest_sensors
    rw [if_pos (by rw [hemp]; rfl)]
    rfl

/-- Witness for C3: "pm2.5" expands to its whole group (so its reference
name "Particulate Matter < 2.5 µm" is queried), and "humidity" — in no
group — is skipped over the humidity catalog. -/
theorem find_nearest_expansion_witness :
    "Particulate Matter < 2.5 µm" ∈ expandedNames "pm2.5" ∧
    find_nearest_sensors [humidityRow] 0 0 ["humidity"] = Except.ok [] :=
  ⟨(find_nearest_expansion "pm2.5" [] 0 0).1
      ["pm2.5", "Particulate Matter < 2.5 µm"] (by decide) (by decide)
      "Particulate Matter < 2.5 µm" (by decide),
   (find_nearest_expansion "humidity" [humidityRow] 0 0).2 (by decide)⟩

/-- **C4.** With a reference point given, `Metadata.query_time_series`
returns the matching time series sorted by non-decreasing distance, each
row carrying a distance column equal to the haversine distance from the
reference point to that row's station; and the resolver's candidate list is
again distance-sorted, so its first row (the one `find_nearest_sensors`
picks via `.iloc[0]`) has minimal distance among all candidates — in
particular, among candidates at 2.1 km, 5.4 km and 0.9 km the 0.9 km entry
comes first. -/
theorem query_sorted_and_resolver_min (ts : List TimeSeriesRow)
    (ph : String) (lat lon : ℝ) :
    List.Sorted distLe (query_time_series ts ph lat lon) ∧
    (∀ p ∈ query_time_series ts ph lat lon,
      p.2 = haversine lat lon p.1.station_lat p.1.station_lon) ∧
    (∀ x, (nearestCandidates ts ph lat lon).head? = some x →
      ∀ y ∈ nearestCandidates ts ph lat lon, x.2 ≤ y.2) := by
  refine ⟨List.sorted_insertionSort distLe _, ?_, ?_⟩
  · intro p hp
    simp only [query_time_series] at hp
    rw [List.mem_insertionSort] at hp
    obtain ⟨r, -, rfl⟩ := List.mem_map.1 hp
    rfl
  · intro x hx y hy
    have hsort : List.Sorted distLe (nearestCandidates ts ph lat lon) :=
      List.sorted_insertionSort distLe _
    cases hl : nearestCandidates ts ph lat lon with
    | nil =>
      rw [hl] at hx
      exact absurd hx (by simp)
    | cons a as =>
      rw [hl] at hx hy hsort
      rw [List.head?_cons] at hx
      obtain rfl := Option.some.inj hx
      rcases List.mem_cons.1 hy with rfl | hy'
      · exact le_refl _
      · exact List.rel_of_sorted_cons hsort y hy'

/-- A PM2.5 reference time series co-located with the sensor at (0, 0). -/
def pmRow : TimeSeriesRow :=
  ⟨6522, "Particulate Matter < 2.5 µm - Brussels",
   "Particulate Matter < 2.5 µm", "µg/m³", 1, "Brussels", 0, 0⟩

/-- Witness for C4: over the one-row catalog `[pmRow]` and the "pm2.5"
phenomenon, the sorted candidate list is the single co-located entry; its
distance column is the haversine distance and it is the minimum the
resolver picks. -/
theorem query_sorted_and_resolver_min_witness :
    (nearestCandidates [pmRow] "pm2.5" 0 0).head? =
      some (pmRow, haversine 0 0 0 0) ∧
    (pmRow, haversine 0 0 0 0).2 =
      haversine 0 0 pmRow.station_lat pmRow.station_lon ∧
    haversine 0 0 0 0 ≤ haversine 0 0 0 0 := by
  have hcand : nearestCandidates [pmRow] "pm2.5" 0 0 =
      [(pmRow, haversine 0 0 0 0)] := rfl
  have hhead : (nearestCandidates [pmRow] "pm2.5" 0 0).head? =
      some (pmRow, haversine 0 0 0 0) := by rw [hcand]; rfl
  refine ⟨hhead, ?_, ?_⟩
  · refine (query_sorted_and_resolver_min [pmRow]
        "Particulate Matter < 2.5 µm" 0 0).2.1 (pmRow, haversine 0 0 0 0) ?_
    rw [show query_time_series [pmRow] "Particulate Matter < 2.5 µm" 0 0 =
      [(pmRow, haversine 0 0 0 0)] from rfl]
    exact List.mem_cons_self _ _
  · exact (query_sorted_and_resolver_min [pmRow] "pm2.5" 0 0).2.2
      (pmRow, haversine 0 0 0 0) hhead (pmRow, haversine 0 0 0 0)
      (by rw [hcand]; exact List.mem_cons_self _ _)

/-- **C7.** Every station returned by `Metadata.search_proximity` carries a
distance column equal to the haversine great-circle distance from the
search center to the station's coordinates, only stations with
`distance ≤ radius` are returned, and the result is sorted by ascending
distance. -/
theorem search_proximity_within_radius_sorted (stations : List Station)
    (lat lon radius : ℝ) :
    List.Sorted distLe (search_proximity stations lat lon radius) ∧
    ∀ p ∈ search_proximity stations lat lon radius,
      p.2 = haversine lat lon p.1.lat p.1.lon ∧ p.2 ≤ radius := by
  refine ⟨List.sorted_insertionSort distLe _, ?_⟩
  intro p hp
  simp only [search_proximity] at hp
  rw [List.mem_insertionSort] at hp
  obtain ⟨hmem, hrad⟩ := List.mem_filter.1 hp
  obtain ⟨st, -, rfl⟩ := List.mem_map.1 hmem
  exact ⟨rfl, of_decide_eq_true hrad⟩

/-- A station at the search center (0, 0). -/
def centerStation : Station := ⟨"Uccle", 0, 0⟩

/-- Witness for C7: searching radius 1 km around (0, 0) over the one-row
station list returns the co-located station; its distance column is the
haversine distance (0 km) and lies within the radius, sorted. -/
theorem search_proximity_witness :
    List.Sorted distLe (search_proximity [centerStation] 0 0 1) ∧
    haversine 0 0 centerStation.lat centerStation.lon ≤ 1 := by
  have hd : decide
      (((centerStation, haversine 0 0 centerStation.lat centerStation.lon)
        : Station × ℝ).2 ≤ (1 : ℝ)) = true := by
    refine decide_eq_true ?_
    show haversine 0 0 centerStation.lat centerStation.lon ≤ 1
    rw [show centerStation.lat = 0 from rfl, show centerStation.lon = 0
      from rfl, haversine_self]
    norm_num
  have hev : search_proximity [centerStation] 0 0 1 =
      [(centerStation, haversine 0 0 centerStation.lat centerStation.lon)]
      := by
    simp [search_proximity, List.filter_cons, hd]
  have hmem : (centerStation,
      haversine 0 0 centerStation.lat centerStation.lon) ∈
      search_proximity [centerStation] 0 0 1 := by
    rw [hev]
    exact List.mem_cons_self _ _
  exact ⟨(search_proximity_within_radius_sorted [centerStation] 0 0 1).1,
    ((search_proximity_within_radius_sorted [centerStation] 0 0 1).2 _
      hmem).2⟩

/-- `Metadata.search_proximity` of resources/irceline.py: the same
filter-and-sort pipeline, except that the distance is computed by calling
the latitude-first `haversine` of resources/utils.py with the longitudes
passed first for both points — `haversine(lon, lat, x["lon"], x["lat"])` —
so latitudes and longitudes trade places inside the formula. -/
noncomputable def resources_search_proximity (stations : List Station)
    (lat lon radius : ℝ) : List (Station × ℝ) :=
  let withDist := stations.map (fun st =>
    (st, haversine lon lat st.lon st.lat))
  let near := withDist.filter (fun p => decide (p.2 ≤ radius))
  List.insertionSort distLe near

/-- **C7 (code bug).** The `resources/irceline.py` radius search fills its
distance column with the haversine formula evaluated with latitudes and
longitudes exchanged, which is not the great-circle distance from the
center.  Concretely, searching from center (lat 60°, lon 0°) returns the
station at (lat 60°, lon 90°) carrying the value `haversine 0 60 90 60`
(the swapped call) — with `a = 1/2` in the formula — which is strictly
larger than the true center-to-station distance `haversine 60 0 60 90`
(where `a = cos²(60°)·sin²(45°) = 1/8`): roughly 10007 km versus 6672 km.
The function's own docstring promises "distances in kilometers from the
search center", and the airqdata/irceline.py rewrite of the same method
passes the coordinates in the correct order. -/
theorem search_proximity_resources_distance_bug :
    ((⟨"E", 60, 90⟩ : Station), haversine 0 60 90 60) ∈
      resources_search_proximity [(⟨"E", 60, 90⟩ : Station)] 60 0 30000 ∧
    haversine 60 0 60 90 < haversine 0 60 90 60 ∧
    haversine 0 60 90 60 ≠ haversine 60 0 60 90 := by
  have e0 : radians 0 = 0 := by unfold radians; ring
  have e60 : radians 60 = Real.pi / 3 := by unfold radians; ring
  have e90 : radians 90 = Real.pi / 2 := by unfold radians; ring
  have ha1 : haversine 0 60 90 60 =
      2 * Real.arcsin (Real.sqrt (1 / 2)) * 6371 := by
    simp only [haversine]
    rw [e0, e60, e90]
    rw [show (Real.pi / 2 - 0) / 2 = Real.pi / 4 by ring,
      show (Real.pi / 3 - Real.pi / 3) / 2 = (0 : ℝ) by ring,
      Real.sin_pi_div_four, Real.cos_zero, Real.cos_pi_div_two,
      Real.sin_zero]
    rw [show (Real.sqrt 2 / 2) ^ 2 + 1 * 0 * (0 : ℝ) ^ 2 =
      Real.sqrt 2 ^ 2 / 4 by ring,
      Real.sq_sqrt (by norm_num : (0 : ℝ) ≤ 2)]
    norm_num
  have ha2 : haversine 60 0 60 90 =
      2 * Real.arcsin (Real.sqrt (1 / 8)) * 6371 := by
    simp only [haversine]
    rw [e0, e60, e90]
    rw [show (Real.pi / 3 - Real.pi / 3) / 2 = (0 : ℝ) by ring,
      show (Real.pi / 2 - 0) / 2 = Real.pi / 4 by ring,
      Real.sin_zero, Real.cos_pi_div_three, Real.sin_pi_div_four]
    rw [show (0 : ℝ) ^ 2 + 1 / 2 * (1 / 2) * (Real.sqrt 2 / 2) ^ 2 =
      Real.sqrt 2 ^ 2 / 16 by ring,
      Real.sq_sqrt (by norm_num : (0 : ℝ) ≤ 2)]
    norm_num
  have hsq : Real.sqrt (1 / 8) < Real.sqrt (1 / 2) :=
    Real.sqrt_lt_sqrt (by norm_num) (by norm_num)
  have harc : Real.arcsin (Real.sqrt (1 / 8)) <
      Real.arcsin (Real.sqrt (1 / 2)) := by
    refine Real.strictMonoOn_arcsin ⟨?_, ?_⟩ ⟨?_, ?_⟩ hsq
    · exact le_trans (by norm_num) (Real.sqrt_nonneg _)
    · exact Real.sqrt_le_one.2 (by norm_num)
    · exact le_trans (by norm_num) (Real.sqrt_nonneg _)
    · exact Real.sqrt_le_one.2 (by norm_num)
  have hlt : haversine 60 0 60 90 < haversine 0 60 90 60 := by
    rw [ha1, ha2]
    linarith
  have hbound : haversine 0 60 90 60 ≤ 30000 := by
    rw [ha1]
    have hp2 := Real.arcsin_le_pi_div_two (Real.sqrt (1 / 2))
    have hp4 := Real.pi_le_four
    nlinarith
  have hd : decide ((((⟨"E", 60, 90⟩ : Station), haversine 0 60 90 60) :
      Station × ℝ).2 ≤ (30000 : ℝ)) = true := decide_eq_true hbound
  have hev : resources_search_proximity [(⟨"E", 60, 90⟩ : Station)] 60 0
      30000 = [((⟨"E", 60, 90⟩ : Station), haversine 0 60 90 60)] := by
    simp [resources_search_proximity, List.filter_cons, hd]
  exact ⟨by rw [hev]; exact List.mem_cons_self _ _, hlt, ne_of_gt hlt⟩
